import Mathlib

/-!
Verification of `sim_main.cpp`, the Verilator simulation driver for the
`filter_rx_pipeline` testbench.

The driver is embedded as a function producing the trace of its external
operations.  The external world is summarised by the oracle
`gotFinish : Nat → Bool`, where `gotFinish j` is the value returned by
`Verilated::gotFinish()` when it is queried after exactly `j` calls to
`tb->eval()` have been performed (each loop iteration performs one query
followed by at most one `eval`, so the query after `j` evals is uniquely
determined).
-/

/-- One externally observable operation of the driver.  Operations on the
model handle `tb` (`new Vfilter_rx_pipeline_tb`, `tb->eval()`, `delete tb`)
are distinguished from operations on the Verilator runtime
(`Verilated::commandArgs`, `Verilated::gotFinish`). -/
inductive Event where
  /-- `Verilated::commandArgs(argc, argv)` — runtime operation. -/
  | commandArgs (argv : List String)
  /-- `new Vfilter_rx_pipeline_tb` — allocation of the model handle. -/
  | alloc
  /-- `Verilated::gotFinish()` returning `result` — runtime operation. -/
  | gotFinish (result : Bool)
  /-- `tb->eval()` — evaluation step on the model handle. -/
  | eval
  /-- `delete tb` — deallocation of the model handle. -/
  | dealloc
  /-- `return code` — process exit status. -/
  | ret (code : Nat)
  deriving DecidableEq, Repr

/-- Is this event a `tb->eval()` call? -/
def Event.isEval : Event → Bool
  | .eval => true
  | _ => false

/-- Is this event a completion query (`Verilated::gotFinish()`)? -/
def Event.isFinishQuery : Event → Bool
  | .gotFinish _ => true
  | _ => false

/-- Is this event an operation on the model handle `tb`? -/
def Event.isModelOp : Event → Bool
  | .alloc => true
  | .eval => true
  | .dealloc => true
  | _ => false

/-- Is this event the allocation `new Vfilter_rx_pipeline_tb`? -/
def Event.isAlloc : Event → Bool
  | .alloc => true
  | _ => false

/-- Is this event the deallocation `delete tb`? -/
def Event.isDealloc : Event → Bool
  | .dealloc => true
  | _ => false

/-- The exit status carried by a `ret` event, if any. -/
def Event.retCode : Event → Option Nat
  | .ret c => some c
  | _ => none

/-- The iteration ceiling `200000` of the `for` loop in `main`. -/
def CEILING : Nat := 200000

/-- Embedding of the loop
`for (int i = 0; i < 200000 && !Verilated::gotFinish(); i++) { tb->eval(); }`.
`i` is the loop counter and `fuel = CEILING - i`, so the bound check
`i < 200000` is `fuel > 0`; by short-circuit evaluation of `&&`,
`Verilated::gotFinish()` is not queried when the bound check fails. -/
def simLoopTrace (gotFinish : Nat → Bool) : Nat → Nat → List Event
  | _, 0 => []
  | i, fuel + 1 =>
    Event.gotFinish (gotFinish i) ::
      (if gotFinish i then [] else Event.eval :: simLoopTrace gotFinish (i + 1) fuel)

/-- Embedding of `main` from `sim_main.cpp`: the trace of operations it
performs, given the argument vector `argv` and the oracle `gotFinish`. -/
def mainTrace (argv : List String) (gotFinish : Nat → Bool) : List Event :=
  Event.commandArgs argv ::
    Event.alloc ::
      (simLoopTrace gotFinish 0 CEILING ++ [Event.dealloc, Event.ret 0])

/-- Number of `tb->eval()` calls in a trace. -/
def evalCalls (t : List Event) : Nat := t.countP Event.isEval

/-- Number of model allocations in a trace. -/
def allocCalls (t : List Event) : Nat := t.countP Event.isAlloc

/-- Number of model deallocations in a trace. -/
def deallocCalls (t : List Event) : Nat := t.countP Event.isDealloc

/-- The exit statuses returned in a trace, in order. -/
def exitCodes (t : List Event) : List Nat := t.filterMap Event.retCode

/-- Does some `tb->eval()` call occur after the first completion query that
returned `true`? -/
def evalAfterFinish : List Event → Bool
  | [] => false
  | Event.gotFinish true :: rest => rest.any Event.isEval
  | _ :: rest => evalAfterFinish rest

/-- Is every `tb->eval()` call in the trace immediately preceded by a
completion query that returned `false`?  `prev` is the event preceding the
head of the list (`none` at the start of the trace). -/
def guardedEvals : Option Event → List Event → Bool
  | _, [] => true
  | prev, e :: rest =>
    (!e.isEval || decide (prev = some (Event.gotFinish false))) &&
      guardedEvals (some e) rest

-- Sanity checks on small concrete instances.
example : simLoopTrace (fun _ => true) 0 3 = [Event.gotFinish true] := by decide
example :
    simLoopTrace (fun j => j == 1) 0 3 =
      [Event.gotFinish false, Event.eval, Event.gotFinish true] := by decide
example : evalCalls (simLoopTrace (fun _ => false) 0 3) = 3 := by decide

/-- Every event of the loop trace is either an `eval` or a completion query. -/
theorem mem_simLoopTrace (gotFinish : Nat → Bool) :
    ∀ fuel i, ∀ e ∈ simLoopTrace gotFinish i fuel,
      e = Event.eval ∨ ∃ b, e = Event.gotFinish b := by
  intro fuel
  induction fuel with
  | zero => intro i e he; simp [simLoopTrace] at he
  | succ fuel ih =>
    intro i e he
    cases hgi : gotFinish i with
    | true =>
      simp [simLoopTrace, hgi] at he
      exact Or.inr ⟨true, he⟩
    | false =>
      simp [simLoopTrace, hgi] at he
      rcases he with he | he | he
      · exact Or.inr ⟨false, he⟩
      · exact Or.inl he
      · exact ih (i + 1) e he

/-- If the oracle stays `false` throughout the window, the loop performs
`fuel` evaluation calls. -/
theorem countP_isEval_simLoopTrace_of_never (gotFinish : Nat → Bool) :
    ∀ fuel i, (∀ d, d < fuel → gotFinish (i + d) = false) →
      (simLoopTrace gotFinish i fuel).countP Event.isEval = fuel := by
  intro fuel
  induction fuel with
  | zero => intro i _; simp [simLoopTrace]
  | succ fuel ih =>
    intro i h
    have h0 : gotFinish i = false := by simpa using h 0 (Nat.succ_pos _)
    have hrest : ∀ d, d < fuel → gotFinish (i + 1 + d) = false := by
      intro d hd
      have := h (d + 1) (by omega)
      rwa [show i + (d + 1) = i + 1 + d by omega] at this
    simp [simLoopTrace, h0, List.countP_cons, Event.isEval, ih (i + 1) hrest]

/-- If the oracle first becomes `true` at offset `k < fuel`, the loop performs
exactly `k` evaluation calls. -/
theorem countP_isEval_simLoopTrace_of_first (gotFinish : Nat → Bool) :
    ∀ k fuel i, k < fuel → (∀ d, d < k → gotFinish (i + d) = false) →
      gotFinish (i + k) = true →
      (simLoopTrace gotFinish i fuel).countP Event.isEval = k := by
  intro k
  induction k with
  | zero =>
    intro fuel i hk _ htrue
    obtain ⟨fuel, rfl⟩ : ∃ f, fuel = f + 1 := ⟨fuel - 1, by omega⟩
    have h0 : gotFinish i = true := by simpa using htrue
    simp [simLoopTrace, h0, List.countP_cons, Event.isEval]
  | succ k ih =>
    intro fuel i hk hbelow htrue
    obtain ⟨fuel, rfl⟩ : ∃ f, fuel = f + 1 := ⟨fuel - 1, by omega⟩
    have h0 : gotFinish i = false := by simpa using hbelow 0 (Nat.succ_pos _)
    have hrest : ∀ d, d < k → gotFinish (i + 1 + d) = false := by
      intro d hd
      have := hbelow (d + 1) (by omega)
      rwa [show i + (d + 1) = i + 1 + d by omega] at this
    have htrue' : gotFinish (i + 1 + k) = true := by
      rwa [show i + (k + 1) = i + 1 + k by omega] at htrue
    simp [simLoopTrace, h0, List.countP_cons, Event.isEval,
      ih fuel (i + 1) (by omega) hrest htrue']

/-- The loop never performs more than `fuel` evaluation calls. -/
theorem countP_isEval_simLoopTrace_le (gotFinish : Nat → Bool) :
    ∀ fuel i, (simLoopTrace gotFinish i fuel).countP Event.isEval ≤ fuel := by
  intro fuel
  induction fuel with
  | zero => intro i; simp [simLoopTrace]
  | succ fuel ih =>
    intro i
    cases hgi : gotFinish i with
    | true => simp [simLoopTrace, hgi, List.countP_cons, Event.isEval]
    | false =>
      simp [simLoopTrace, hgi, List.countP_cons, Event.isEval]
      exact ih (i + 1)

/-- Any predicate that holds neither of `eval` nor of completion queries
counts zero events in the loop trace. -/
theorem countP_simLoopTrace_eq_zero (gotFinish : Nat → Bool) (p : Event → Bool)
    (h1 : p Event.eval = false) (h2 : ∀ b, p (Event.gotFinish b) = false) :
    ∀ fuel i, (simLoopTrace gotFinish i fuel).countP p = 0 := by
  intro fuel i
  rw [List.countP_eq_zero]
  intro e he
  rcases mem_simLoopTrace gotFinish fuel i e he with rfl | ⟨b, rfl⟩
  · simp [h1]
  · simp [h2 b]

/-- No evaluation call occurs after a completion query returns `true`:
inside the loop the trace ends right after such a query, and the epilogue
`delete tb; return 0` performs no evaluation. -/
theorem evalAfterFinish_simLoopTrace (gotFinish : Nat → Bool) :
    ∀ fuel i,
      evalAfterFinish (simLoopTrace gotFinish i fuel ++ [Event.dealloc, Event.ret 0]) =
        false := by
  intro fuel
  induction fuel with
  | zero => intro i; simp [simLoopTrace]; rfl
  | succ fuel ih =>
    intro i
    cases hgi : gotFinish i with
    | true =>
      simp [simLoopTrace, hgi]
      rfl
    | false =>
      simp [simLoopTrace, hgi, evalAfterFinish]
      exact ih (i + 1)

/-- In the loop followed by the epilogue, every evaluation call is
immediately preceded by a completion query that returned `false`. -/
theorem guardedEvals_simLoopTrace (gotFinish : Nat → Bool) :
    ∀ fuel i prev,
      guardedEvals prev (simLoopTrace gotFinish i fuel ++ [Event.dealloc, Event.ret 0]) =
        true := by
  intro fuel
  induction fuel with
  | zero => intro i prev; simp [simLoopTrace]; rfl
  | succ fuel ih =>
    intro i prev
    cases hgi : gotFinish i with
    | true =>
      simp [simLoopTrace, hgi]
      rfl
    | false =>
      simp [simLoopTrace, hgi, guardedEvals, Event.isEval]
      exact ih (i + 1) (some Event.eval)

/-- The model-handle operations performed inside the loop are exactly its
evaluation calls. -/
theorem filter_isModelOp_simLoopTrace (gotFinish : Nat → Bool) :
    ∀ fuel i, (simLoopTrace gotFinish i fuel).filter Event.isModelOp =
      List.replicate ((simLoopTrace gotFinish i fuel).countP Event.isEval) Event.eval := by
  intro fuel
  induction fuel with
  | zero => intro i; simp [simLoopTrace]
  | succ fuel ih =>
    intro i
    cases hgi : gotFinish i with
    | true =>
      simp [simLoopTrace, hgi, Event.isModelOp, Event.isEval, List.countP_cons]
    | false =>
      simp [simLoopTrace, hgi, Event.isModelOp, Event.isEval, List.countP_cons,
        List.filter_cons, ih (i + 1), List.replicate_succ]

/-- The loop returns no exit status. -/
theorem filterMap_retCode_simLoopTrace (gotFinish : Nat → Bool) :
    ∀ fuel i, (simLoopTrace gotFinish i fuel).filterMap Event.retCode = [] := by
  intro fuel i
  rw [List.filterMap_eq_nil_iff]
  intro e he
  rcases mem_simLoopTrace gotFinish fuel i e he with rfl | ⟨b, rfl⟩
  · rfl
  · rfl

/-- The number of evaluation calls of the whole driver equals the number of
evaluation calls of its loop. -/
theorem evalCalls_mainTrace (argv : List String) (gotFinish : Nat → Bool) :
    evalCalls (mainTrace argv gotFinish) =
      (simLoopTrace gotFinish 0 CEILING).countP Event.isEval := by
  simp [evalCalls, mainTrace, List.countP_cons, List.countP_append, Event.isEval]

/-- The driver deallocates the model instance exactly once. -/
theorem deallocCalls_mainTrace (argv : List String) (gotFinish : Nat → Bool) :
    deallocCalls (mainTrace argv gotFinish) = 1 := by
  simp [deallocCalls, mainTrace, List.countP_cons, List.countP_append, Event.isDealloc,
    countP_simLoopTrace_eq_zero gotFinish Event.isDealloc rfl (fun _ => rfl)]

/-- The driver allocates the model instance exactly once. -/
theorem allocCalls_mainTrace (argv : List String) (gotFinish : Nat → Bool) :
    allocCalls (mainTrace argv gotFinish) = 1 := by
  simp [allocCalls, mainTrace, List.countP_cons, List.countP_append, Event.isAlloc,
    countP_simLoopTrace_eq_zero gotFinish Event.isAlloc rfl (fun _ => rfl)]

/-- The driver returns the single exit status `0`. -/
theorem exitCodes_mainTrace (argv : List String) (gotFinish : Nat → Bool) :
    exitCodes (mainTrace argv gotFinish) = [0] := by
  simp [exitCodes, mainTrace, List.filterMap_cons, List.filterMap_append,
    filterMap_retCode_simLoopTrace gotFinish CEILING 0, Event.retCode]

/-- The driver performs no evaluation call after a completion query returns
`true`. -/
theorem evalAfterFinish_mainTrace (argv : List String) (gotFinish : Nat → Bool) :
    evalAfterFinish (mainTrace argv gotFinish) = false := by
  simp [mainTrace, evalAfterFinish]
  exact evalAfterFinish_simLoopTrace gotFinish CEILING 0

/-- C1: for every model that raises its completion flag during evaluation
step `k` with `k < 200000`, the driver loop terminates at that step (exactly
`k` evaluation calls, no evaluation call after the flag is observed), and
deallocation of the model instance occurs exactly once afterwards. -/
theorem C1_early_completion (argv : List String) (gotFinish : Nat → Bool)
    (k : Nat) (hk : k < CEILING) (hbelow : ∀ j, j < k → gotFinish j = false)
    (htrue : gotFinish k = true) :
    evalCalls (mainTrace argv gotFinish) = k ∧
    evalAfterFinish (mainTrace argv gotFinish) = false ∧
    deallocCalls (mainTrace argv gotFinish) = 1 := by
  refine ⟨?_, evalAfterFinish_mainTrace argv gotFinish,
    deallocCalls_mainTrace argv gotFinish⟩
  rw [evalCalls_mainTrace]
  exact countP_isEval_simLoopTrace_of_first gotFinish k CEILING 0 hk
    (fun d hd => by simpa using hbelow d hd) (by simpa using htrue)

/-- Witness for C1: a model whose completion flag is first observed raised
after the second evaluation call. -/
theorem C1_early_completion_witness :
    evalCalls (mainTrace [] (fun j => j == 2)) = 2 ∧
    evalAfterFinish (mainTrace [] (fun j => j == 2)) = false ∧
    deallocCalls (mainTrace [] (fun j => j == 2)) = 1 :=
  C1_early_completion [] (fun j => j == 2) 2 (by decide) (by decide) (by decide)

/-- C2: for every model that never raises its completion flag, the driver
performs exactly `200000` evaluation calls and then deallocates the model
instance. -/
theorem C2_exhaustion (argv : List String) (gotFinish : Nat → Bool)
    (h : ∀ j, gotFinish j = false) :
    evalCalls (mainTrace argv gotFinish) = CEILING ∧
    deallocCalls (mainTrace argv gotFinish) = 1 := by
  refine ⟨?_, deallocCalls_mainTrace argv gotFinish⟩
  rw [evalCalls_mainTrace]
  exact countP_isEval_simLoopTrace_of_never gotFinish CEILING 0 (fun d _ => h (0 + d))

/-- Witness for C2: the model whose completion flag is never raised. -/
theorem C2_exhaustion_witness :
    evalCalls (mainTrace [] (fun _ => false)) = CEILING ∧
    deallocCalls (mainTrace [] (fun _ => false)) = 1 :=
  C2_exhaustion [] (fun _ => false) (fun _ => rfl)

/-- C3: for every argument vector and every model behavior, the process exit
status is `0`, and it is the only exit status the driver can return. -/
theorem C3_exit_status_zero (argv : List String) (gotFinish : Nat → Bool) :
    exitCodes (mainTrace argv gotFinish) = [0] :=
  exitCodes_mainTrace argv gotFinish

/-- C4: on every execution path, the model instance is allocated exactly
once and deallocated exactly once. -/
theorem C4_alloc_dealloc_once (argv : List String) (gotFinish : Nat → Bool) :
    allocCalls (mainTrace argv gotFinish) = 1 ∧
    deallocCalls (mainTrace argv gotFinish) = 1 :=
  ⟨allocCalls_mainTrace argv gotFinish, deallocCalls_mainTrace argv gotFinish⟩

/-- C5: on every run the driver performs, in this fixed order: argument
processing, allocation of the model instance, the evaluation loop (whose
events are only completion queries and evaluation calls), then deallocation
and exit with status `0`. -/
theorem C5_fixed_order (argv : List String) (gotFinish : Nat → Bool) :
    ∃ loopEvents : List Event,
      mainTrace argv gotFinish =
        Event.commandArgs argv :: Event.alloc ::
          (loopEvents ++ [Event.dealloc, Event.ret 0]) ∧
      loopEvents.all (fun e => e.isFinishQuery || e.isEval) = true := by
  refine ⟨simLoopTrace gotFinish 0 CEILING, rfl, ?_⟩
  rw [List.all_eq_true]
  intro e he
  rcases mem_simLoopTrace gotFinish CEILING 0 e he with rfl | ⟨b, rfl⟩ <;> rfl

/-- C6: the driver terminates on every model behavior; the evaluation loop
performs at most `200000` iterations. -/
theorem C6_loop_bounded (argv : List String) (gotFinish : Nat → Bool) :
    evalCalls (mainTrace argv gotFinish) ≤ CEILING := by
  rw [evalCalls_mainTrace]
  exact countP_isEval_simLoopTrace_le gotFinish CEILING 0

/-- C7 counterexample: at the concrete input `argv = []`, a model whose
completion flag is raised from the start, the driver's trace contains a
completion query, yet no completion query in the trace is an operation on
the model handle — completion is queried on the Verilator runtime
(`Verilated::gotFinish()`), not on `tb`. -/
theorem C7_counterexample :
    ((mainTrace [] (fun _ => true)).any
        (fun e => e.isFinishQuery && e.isModelOp) = false) ∧
    ((mainTrace [] (fun _ => true)).any Event.isFinishQuery = true) := by
  have h : mainTrace [] (fun _ => true) =
      [Event.commandArgs [], Event.alloc, Event.gotFinish true,
        Event.dealloc, Event.ret 0] := by
    rw [mainTrace, show CEILING = 199999 + 1 from rfl]
    simp [simLoopTrace]
  rw [h]
  exact ⟨by decide, by decide⟩

/-- C7 (amended): the driver interacts with the model handle through exactly
one operation besides construction and destruction, namely advancing one
evaluation step; completion queries are runtime operations, never operations
on the model handle. -/
theorem C7_model_handle_ops (argv : List String) (gotFinish : Nat → Bool) :
    (mainTrace argv gotFinish).filter Event.isModelOp =
      Event.alloc ::
        (List.replicate (evalCalls (mainTrace argv gotFinish)) Event.eval ++
          [Event.dealloc]) ∧
    (mainTrace argv gotFinish).countP
        (fun e => e.isFinishQuery && e.isModelOp) = 0 := by
  constructor
  · rw [evalCalls_mainTrace]
    simp [mainTrace, List.filter_cons, List.filter_append, Event.isModelOp,
      filter_isModelOp_simLoopTrace gotFinish CEILING 0]
  · rw [mainTrace]
    simp only [List.countP_cons, List.countP_append,
      countP_simLoopTrace_eq_zero gotFinish
        (fun e => e.isFinishQuery && e.isModelOp) rfl (fun _ => rfl) CEILING 0]
    rfl

/-- C8: the driver's control flow is independent of the argument contents:
for any two argument vectors and the same completion-flag responses, the
driver performs the same number of evaluation calls and returns the same
exit status. -/
theorem C8_args_noninterference (argv1 argv2 : List String)
    (gotFinish : Nat → Bool) :
    evalCalls (mainTrace argv1 gotFinish) = evalCalls (mainTrace argv2 gotFinish) ∧
    exitCodes (mainTrace argv1 gotFinish) = exitCodes (mainTrace argv2 gotFinish) := by
  constructor
  · rw [evalCalls_mainTrace, evalCalls_mainTrace]
  · rw [exitCodes_mainTrace, exitCodes_mainTrace]

/-- C9: if the completion flag is already raised at the first loop-condition
check, the driver performs zero evaluation calls, still deallocates the
model instance exactly once, and exits with status `0`. -/
theorem C9_prefinished (argv : List String) (gotFinish : Nat → Bool)
    (h : gotFinish 0 = true) :
    evalCalls (mainTrace argv gotFinish) = 0 ∧
    deallocCalls (mainTrace argv gotFinish) = 1 ∧
    exitCodes (mainTrace argv gotFinish) = [0] := by
  refine ⟨?_, deallocCalls_mainTrace argv gotFinish,
    exitCodes_mainTrace argv gotFinish⟩
  rw [evalCalls_mainTrace]
  exact countP_isEval_simLoopTrace_of_first gotFinish 0 CEILING 0 (by decide)
    (fun d hd => absurd hd (Nat.not_lt_zero d)) (by simpa using h)

/-- Witness for C9: the model whose completion flag is raised from the
start. -/
theorem C9_prefinished_witness :
    evalCalls (mainTrace [] (fun _ => true)) = 0 ∧
    deallocCalls (mainTrace [] (fun _ => true)) = 1 ∧
    exitCodes (mainTrace [] (fun _ => true)) = [0] :=
  C9_prefinished [] (fun _ => true) rfl

/-- C10: the completion flag is checked before every evaluation call: in the
driver's trace, every evaluation call is immediately preceded by a
completion query that returned `false`. -/
theorem C10_eval_guarded (argv : List String) (gotFinish : Nat → Bool) :
    guardedEvals none (mainTrace argv gotFinish) = true := by
  rw [mainTrace]
  simp [guardedEvals, Event.isEval]
  exact guardedEvals_simLoopTrace gotFinish CEILING 0 (some Event.alloc)
